import Mathlib

/-
Verification of the weather-bot agent (src/src/lib/agent/agentClient.ts and
src/src/index.ts) against its natural-language specification.

Strings are modelled as `List Char`.  JavaScript string operations used by the
source (`startsWith`, `replace` with a string pattern, `trim`, `split(",")`,
`parseFloat` NaN-detection, the regex /ACTION:\s*(\w+)\(([^)]+)\)/) are given
explicit executable definitions below, faithful to their JS semantics on the
character classes involved.
-/

set_option maxRecDepth 10000

namespace WeatherBot

/-- Character is in the JavaScript whitespace class (as used by `trim`,
`parseFloat` and the regex class `\s`): space, tab, LF, VT, FF, CR, NBSP.
Rarer Unicode space code points are omitted; no theorem below depends on them. -/
def isSpaceChar (c : Char) : Bool :=
  decide (c.toNat = 32 ∨ (9 ≤ c.toNat ∧ c.toNat ≤ 13) ∨ c.toNat = 160)

/-- Character is in the JavaScript regex class `\w`, i.e. [A-Za-z0-9_]. -/
def isWordChar (c : Char) : Bool :=
  decide ((48 ≤ c.toNat ∧ c.toNat ≤ 57) ∨ (65 ≤ c.toNat ∧ c.toNat ≤ 90) ∨
    (97 ≤ c.toNat ∧ c.toNat ≤ 122) ∨ c.toNat = 95)

/-- Character is an ASCII decimal digit (JS regex class `[0-9]`). -/
def isDigitChar (c : Char) : Bool :=
  decide (48 ≤ c.toNat ∧ c.toNat ≤ 57)

/-- JavaScript `s.startsWith(pat)` on our list-of-characters strings. -/
def beginsWith : List Char → List Char → Bool
  | _, [] => true
  | [], _ :: _ => false
  | c :: s, p :: ps => c == p && beginsWith s ps

/-- JavaScript `s.includes(pat)`: some suffix of `s` begins with `pat`. -/
def containsSub : List Char → List Char → Bool
  | [], pat => beginsWith [] pat
  | c :: s, pat => beginsWith (c :: s) pat || containsSub s pat

/-- JavaScript `s.replace(pat, "")` with a plain-string pattern: remove the
first occurrence of `pat` from `s` (or return `s` unchanged if absent). -/
def replaceFirst : List Char → List Char → List Char
  | [], _ => []
  | c :: s, pat =>
      if beginsWith (c :: s) pat then (c :: s).drop pat.length
      else c :: replaceFirst s pat

/-- JavaScript `s.trim()`: strip whitespace from both ends. -/
def trimChars (s : List Char) : List Char :=
  ((s.dropWhile isSpaceChar).reverse.dropWhile isSpaceChar).reverse

/-- JavaScript `s.split(",")`: split on commas, keeping empty fields
(so the result is always non-empty; `"".split(",")` is `[""]`). -/
def splitComma : List Char → List (List Char)
  | [] => [[]]
  | c :: s =>
      if c == ',' then [] :: splitComma s
      else
        match splitComma s with
        | t :: ts => (c :: t) :: ts
        | [] => [[c]]

/-- JavaScript `parseFloat(s)` produces a non-NaN number: after optional
leading whitespace and an optional sign, the string continues with a digit,
a decimal point followed by a digit, or the literal `Infinity`. -/
def parseFloatOk (s : List Char) : Bool :=
  let t := s.dropWhile isSpaceChar
  let t2 := match t with
    | c :: r => if c == '+' || c == '-' then r else t
    | [] => []
  match t2 with
  | [] => false
  | c :: r =>
      isDigitChar c ||
      (c == '.' && (match r with | d :: _ => isDigitChar d | [] => false)) ||
      beginsWith t2 ("Infinity".toList)

/-! ## Data model (src/src/lib/agent/agentClient.ts, Linear activity content) -/

/-- Activity kinds of the Linear SDK used by the source: the five kinds the
mapper emits plus `prompt`, which occurs in the session's prior activity log. -/
inductive ActivityType where
  | thought
  | action
  | response
  | elicitation
  | error
  | prompt
deriving BEq, DecidableEq, Repr

/-- Tool names registered in the source. Modelled from the spec: `ToolName`
lives in ../types (not under src/); `executeAction`'s exhaustive switch and the
spec's "three registered tool names" fix it to exactly these three. -/
inductive ToolName where
  | getCoordinates
  | getWeather
  | getTime
deriving BEq, DecidableEq, Repr

/-- Activity content written back to Linear (the `Content` union of ../types
as used by agentClient.ts): body-carrying variants, and the action variant
with tool name, optional parameter and optional result. -/
inductive Content where
  | thought (body : List Char)
  | action (act : ToolName) (parameter : Option (List Char)) (result : Option (List Char))
  | response (body : List Char)
  | elicitation (body : List Char)
  | error (body : List Char)
deriving BEq, DecidableEq, Repr

/-- Message roles of the OpenAI chat API as used by the source. -/
inductive Role where
  | system
  | user
  | assistant
deriving BEq, DecidableEq, Repr

/-- One conversation-history message. -/
structure Message where
  role : Role
  content : List Char
deriving BEq, DecidableEq, Repr

/-- Errors raised inside the agent loop, with the messages the source attaches
to them. -/
inductive AgentError where
  | invalidToolName (raw : List Char)
  | unreachableCase
  | parameterRequired
  | invalidParamWeather
  | invalidParamTime
  | openAI (inner : List Char)
  | toolFailure (msg : List Char)
deriving BEq, DecidableEq, Repr

/-- Message of each error, as `error.message` would read it. The
`unreachableCase` text is modelled from the spec: `UnreachableCaseError` is
declared in ../types, which is not under src/; only its existence and use as a
thrown error matter below, never its exact text. -/
def AgentError.message : AgentError → List Char
  | .invalidToolName raw => "Invalid tool name: ".toList ++ raw
  | .unreachableCase => "Unreachable case".toList
  | .parameterRequired => "Parameter is required for action execution".toList
  | .invalidParamWeather => "Invalid parameter for getWeather action".toList
  | .invalidParamTime => "Invalid parameter for getTime action".toList
  | .openAI inner => "OpenAI API error: ".toList ++ inner
  | .toolFailure m => m

/-! ## Activity Mapper (mapResponseToLinearActivityContent, lines 152-191) -/

/-- Keyword table of the mapper, in the source's object-literal order
(Thought, Action, Response, Elicitation, Error). -/
def typeKeywords : List (ActivityType × List Char) :=
  [ (.thought, "THINKING:".toList),
    (.action, "ACTION:".toList),
    (.response, "RESPONSE:".toList),
    (.elicitation, "ELICITATION:".toList),
    (.error, "ERROR:".toList) ]

/-- Detected activity type: first keyword (in table order) that the response
starts with, defaulting to Thought (lines 160-165). -/
def detectType (s : List Char) : ActivityType :=
  match typeKeywords.find? (fun tk => beginsWith s tk.2) with
  | some tk => tk.1
  | none => .thought

/-- Keyword registered for a type (lookup in the same table). -/
def keywordOf (t : ActivityType) : List Char :=
  match typeKeywords.find? (fun tk => tk.1 == t) with
  | some tk => tk.2
  | none => []

/-- Lookup of a raw identifier among the registered tool names. Modelled from
the spec: `isToolName` is declared in ../types (not under src/); the spec fixes
it to membership in the three registered tool names. -/
def toolNameOf (s : List Char) : Option ToolName :=
  if s == "getCoordinates".toList then some .getCoordinates
  else if s == "getWeather".toList then some .getWeather
  else if s == "getTime".toList then some .getTime
  else none

/-- Attempt of the regex /ACTION:\s*(\w+)\(([^)]+)\)/ at the head of `s`,
returning the two capture groups. The character classes at each boundary are
disjoint, so the greedy maximal-munch below is exactly the regex's behavior. -/
def matchActionAt (s : List Char) : Option (List Char × List Char) :=
  if beginsWith s ("ACTION:".toList) then
    let r1 := s.drop 7
    let r2 := r1.dropWhile isSpaceChar
    let ident := r2.takeWhile isWordChar
    let r3 := r2.dropWhile isWordChar
    if ident.isEmpty then none
    else
      match r3 with
      | '(' :: r4 =>
          let args := r4.takeWhile (fun c => c != ')')
          let r5 := r4.dropWhile (fun c => c != ')')
          if args.isEmpty then none
          else
            match r5 with
            | ')' :: _ => some (ident, args)
            | _ => none
      | _ => none
  else none

/-- Leftmost match of the action regex in `s` (JavaScript `s.match(...)`
tries each start position from the left). -/
def findActionMatch : List Char → Option (List Char × List Char)
  | [] => none
  | c :: s =>
      match matchActionAt (c :: s) with
      | some m => some m
      | none => findActionMatch s

/-- Mapper from a raw completion string to Linear activity content
(lines 152-191). Non-action types strip the first occurrence of the detected
keyword and trim; the action type runs the call regex, rejects unregistered
tool names, and falls through to the switch default (UnreachableCaseError)
when the regex does not match. The `prompt` branch is the same switch default,
unreachable because `detectType` never returns it. -/
def mapResponseToLinearActivityContent (response : List Char) : Except AgentError Content :=
  match detectType response with
  | .thought => .ok (.thought (trimChars (replaceFirst response (keywordOf .thought))))
  | .response => .ok (.response (trimChars (replaceFirst response (keywordOf .response))))
  | .elicitation => .ok (.elicitation (trimChars (replaceFirst response (keywordOf .elicitation))))
  | .error => .ok (.error (trimChars (replaceFirst response (keywordOf .error))))
  | .prompt => .error .unreachableCase
  | .action =>
      match findActionMatch response with
      | some (ident, args) =>
          match toolNameOf ident with
          | some tn => .ok (.action tn (if args.isEmpty then none else some args) none)
          | none => .error (.invalidToolName ident)
      | none => .error .unreachableCase

/-! ## Tool execution (executeAction, lines 198-244) -/

/-- External tool calls. Modelled from the spec: getCoordinates / getWeather /
getTime live in ./tools (not under src/) and are single external HTTP calls.
Each may fail (the HTTP call rejecting) with some message, and otherwise
returns the serialized result string the source passes on. The two
coordinate-taking tools are abstracted over the trimmed comma-split tokens the
source feeds to `parseFloat`, since the numeric value of a token is a function
of the token. -/
structure ToolEnv where
  getCoordinates : List Char → Except (List Char) (List Char)
  getWeather : List Char → List Char → Except (List Char) (List Char)
  getTime : List Char → List Char → Except (List Char) (List Char)

/-- Comma-split, trimmed parameter tokens, as computed at lines 212-214 and
227-229 (`parameter.split(",").map(p => p.trim())` before `parseFloat`). -/
def paramTokens (p : List Char) : List (List Char) :=
  (splitComma p).map trimChars

/-- Tool dispatch (lines 198-244): requires a truthy parameter (non-null and
non-empty), strips double quotes for getCoordinates, and for getWeather /
getTime requires at least two comma-separated tokens whose first two both
parse to non-NaN floats. -/
def executeAction (env : ToolEnv) (act : ToolName) (parameter : Option (List Char)) :
    Except AgentError (List Char) :=
  match parameter with
  | none => .error .parameterRequired
  | some p =>
      if p.isEmpty then .error .parameterRequired
      else
        match act with
        | .getCoordinates =>
            (env.getCoordinates (p.filter (fun c => c != '"'))).mapError .toolFailure
        | .getWeather =>
            let parts := paramTokens p
            if 2 ≤ parts.length && parseFloatOk (parts.getD 0 []) &&
                parseFloatOk (parts.getD 1 []) then
              (env.getWeather (parts.getD 0 []) (parts.getD 1 [])).mapError .toolFailure
            else .error .invalidParamWeather
        | .getTime =>
            let parts := paramTokens p
            if 2 ≤ parts.length && parseFloatOk (parts.getD 0 []) &&
                parseFloatOk (parts.getD 1 []) then
              (env.getTime (parts.getD 0 []) (parts.getD 1 [])).mapError .toolFailure
            else .error .invalidParamTime

/-! ## Agent loop (handleUserPrompt, lines 29-143) -/

/-- Completion results delivered by the OpenAI API across the run, indexed by
the 0-based iteration number: either a failure message or the returned text
(after the source's `|| "No response"` sentinel). Indexing by iteration is
fully general for a single run, since the loop makes exactly one call per
iteration. -/
def CompletionOracle : Type := Nat → Except (List Char) (List Char)

/-- callOpenAI (lines 251-268): wraps an API failure as an error whose
message carries the descriptive "OpenAI API error: " prefix (the prefix is
attached by `AgentError.message`). -/
def callOpenAI (oracle : CompletionOracle) (i : Nat) : Except AgentError (List Char) :=
  match oracle i with
  | .ok s => .ok s
  | .error m => .error (.openAI m)

/-- State threaded through the while loop: the conversation history, the
activities persisted to Linear so far (in order), and the two loop controls
`taskComplete` and `iterations`. -/
structure LoopState where
  messages : List Message
  persisted : List Content
  taskComplete : Bool
  iterations : Nat
deriving Repr

/-- Failure handler (catch block, lines 117-129): persist one Error activity
carrying the message prefixed with "Agent error: ", and end the loop. -/
def failState (st : LoopState) (e : AgentError) : LoopState :=
  { st with
    persisted := st.persisted ++ [.error ("Agent error: ".toList ++ e.message)],
    taskComplete := true }

/-- Truthiness coercion `parameter || null` applied when building the outcome
activity (line 89). -/
def orNull : Option (List Char) → Option (List Char)
  | none => none
  | some p => if p.isEmpty then none else some p

/-- Body of one while-loop iteration (lines 47-129), given this iteration's
callOpenAI result: map the response, dispatch on the activity type, and route
any raise into the catch block. The iteration counter is incremented by the
loop driver, not here. -/
def loopBody (env : ToolEnv) (res : Except AgentError (List Char)) (st : LoopState) : LoopState :=
  match res with
  | .error e => failState st e
  | .ok response =>
      match mapResponseToLinearActivityContent response with
      | .error e => failState st e
      | .ok content =>
          match content with
          | .thought body =>
              { st with
                persisted := st.persisted ++ [.thought body],
                messages := st.messages ++ [⟨.assistant, response⟩] }
          | .action tn param res0 =>
              let st1 := { st with persisted := st.persisted ++ [.action tn param res0] }
              match executeAction env tn param with
              | .error e => failState st1 e
              | .ok toolResult =>
                  { st1 with
                    messages := st1.messages ++
                      [⟨.assistant, response⟩,
                       ⟨.user, "Tool result: ".toList ++ toolResult⟩],
                    persisted := st1.persisted ++
                      [.action tn (orNull param) (some toolResult)] }
          | .response body =>
              { st with persisted := st.persisted ++ [.response body], taskComplete := true }
          | .elicitation body =>
              { st with persisted := st.persisted ++ [.elicitation body], taskComplete := true }
          | .error body =>
              { st with persisted := st.persisted ++ [.error body], taskComplete := true }

/-- MAX_ITERATIONS (line 13). -/
def maxIterations : Nat := 10

/-- Fuel-indexed unfolding of the while loop (lines 44-130). Every pass
increments `iterations` by exactly one, so fuel `maxIterations` from
`iterations = 0` runs the loop to its real exit. -/
def runLoop (env : ToolEnv) (oracle : CompletionOracle) : Nat → LoopState → LoopState
  | 0, st => st
  | fuel + 1, st =>
      if st.taskComplete = false ∧ st.iterations < maxIterations then
        runLoop env oracle fuel
          (loopBody env (callOpenAI oracle st.iterations) { st with iterations := st.iterations + 1 })
      else st

/-- Body of the Error activity persisted when the iteration budget is
exhausted (lines 133-134). -/
def maxIterationsMessage : List Char :=
  "The agent has reached the maximum number of iterations and will now stop.".toList

/-- Loop state at entry (lines 41-42), seeded with the given message history. -/
def initState (init : List Message) : LoopState :=
  { messages := init, persisted := [], taskComplete := false, iterations := 0 }

/-- handleUserPrompt loop portion plus the final limit check (lines 41-142):
run the loop, and if it ended incomplete with the budget exhausted, persist
the limit-reached Error activity. -/
def handleUserPrompt (env : ToolEnv) (oracle : CompletionOracle) (init : List Message) :
    LoopState :=
  let final := runLoop env oracle maxIterations (initState init)
  if final.taskComplete = false ∧ maxIterations ≤ final.iterations then
    { final with persisted := final.persisted ++ [.error maxIterationsMessage] }
  else final

/-! ## Conversation seeding (lines 35-39 and 277-318) -/

/-- One activity from the session's prior activity log, as returned (newest
first) by the tracker API: its content type and body. -/
structure PrevActivity where
  ctype : ActivityType
  body : List Char
deriving BEq, DecidableEq, Repr

/-- generateMessagesFromPreviousActivities (lines 277-318): keep only prompt
and response activities, reverse into chronological order, and map prompts to
user messages and responses to assistant messages. The paginated fetch is
modelled by receiving the full log as a list. -/
def generateMessagesFromPreviousActivities (log : List PrevActivity) : List Message :=
  ((log.filter (fun a => a.ctype == .prompt || a.ctype == .response)).reverse).map
    (fun a => ⟨if a.ctype == .prompt then .user else .assistant, a.body⟩)

/-- Message seed of the loop (lines 35-39): the array literal with the system
prompt, the user prompt made `undefined` when empty, and the reconstructed
prior turns, then `.filter(Boolean)`. The system instruction text lives in
./prompt (not under src/) and is passed in abstractly. -/
def messagesSeed (sysPrompt userPrompt : List Char) (log : List PrevActivity) : List Message :=
  (([some ⟨.system, sysPrompt⟩,
     if userPrompt.isEmpty then none else some ⟨.user, userPrompt⟩] ++
    (generateMessagesFromPreviousActivities log).map some) : List (Option Message)).filterMap id

/-! ## Verification-side helper predicates -/

/-- Terminal activity kinds: Response, Error, Elicitation (spec glossary). -/
def isTerminal : Content → Bool
  | .response _ => true
  | .error _ => true
  | .elicitation _ => true
  | _ => false

/-- Content is an Error activity. -/
def isErrorActivity : Content → Bool
  | .error _ => true
  | _ => false

/-- Classification of one iteration, from its callOpenAI result: the loop
continues (thought, or action whose tool call succeeds), stops on a terminal
activity, or fails with an error routed to the catch block. -/
inductive StepKind where
  | keepGoing
  | stop
  | fails (e : AgentError)
deriving BEq, DecidableEq, Repr

/-- Classify what one iteration with completion result `res` does. -/
def classifyStep (env : ToolEnv) (res : Except AgentError (List Char)) : StepKind :=
  match res with
  | .error e => .fails e
  | .ok response =>
      match mapResponseToLinearActivityContent response with
      | .error e => .fails e
      | .ok content =>
          match content with
          | .thought _ => .keepGoing
          | .action tn param _ =>
              match executeAction env tn param with
              | .ok _ => .keepGoing
              | .error e => .fails e
          | .response _ => .stop
          | .elicitation _ => .stop
          | .error _ => .stop

/-- Completion result maps to a Thought activity. -/
def mapsToThought (res : Except AgentError (List Char)) : Bool :=
  match res with
  | .error _ => false
  | .ok r =>
      match mapResponseToLinearActivityContent r with
      | .ok (.thought _) => true
      | _ => false

/-- Spec-side description of the seeded conversation history (spec section 3,
"Conversation History"): the fixed system instruction, then the initial user
prompt when non-empty, then the prior turns filtered to prompt/response kinds,
reversed into chronological order, prompts as user and responses as assistant
messages. Written from the spec's words, to be compared with `messagesSeed`. -/
def specSeedMessages (sysPrompt userPrompt : List Char) (log : List PrevActivity) : List Message :=
  ⟨.system, sysPrompt⟩ ::
    ((if userPrompt.isEmpty then [] else [⟨.user, userPrompt⟩]) ++
     ((log.filter (fun a => a.ctype == .prompt || a.ctype == .response)).reverse).map
       (fun a => ⟨if a.ctype == .prompt then .user else .assistant, a.body⟩))

/-- Concrete tool environment used by closed evaluation witnesses. -/
def witnessEnv : ToolEnv :=
  ⟨fun _ => .ok ("C".toList), fun _ _ => .ok ("W".toList), fun _ _ => .ok ("T".toList)⟩

/-- Oracle that always answers with a Thought-prefixed completion. -/
def thoughtOracle : CompletionOracle := fun _ => .ok ("THINKING: hi".toList)

/-- Oracle whose first completion call fails. -/
def failOracle : CompletionOracle := fun _ => .error ("boom".toList)

/-- Oracle that always answers with a Response-prefixed completion. -/
def responseOracle : CompletionOracle := fun _ => .ok ("RESPONSE: done".toList)

/-! ## String-primitive lemmas -/

theorem beginsWith_nil_pat (s : List Char) : beginsWith s [] = true := by
  cases s <;> rfl

theorem beginsWith_cons (c : Char) (s : List Char) (p : Char) (ps : List Char) :
    beginsWith (c :: s) (p :: ps) = ((c == p) && beginsWith s ps) := rfl

theorem beginsWith_append_self (pat rest : List Char) :
    beginsWith (pat ++ rest) pat = true := by
  induction pat with
  | nil => exact beginsWith_nil_pat rest
  | cons p ps ih => simp [beginsWith_cons, ih]

theorem beginsWith_cons_elim {s : List Char} {p : Char} {ps : List Char}
    (h : beginsWith s (p :: ps) = true) :
    ∃ r, s = p :: r ∧ beginsWith r ps = true := by
  cases s with
  | nil => simp [beginsWith] at h
  | cons c r =>
      rw [beginsWith_cons, Bool.and_eq_true, beq_iff_eq] at h
      exact ⟨r, by rw [h.1], h.2⟩

theorem replaceFirst_cons (c : Char) (s pat : List Char) :
    replaceFirst (c :: s) pat =
      (if beginsWith (c :: s) pat then (c :: s).drop pat.length
       else c :: replaceFirst s pat) := rfl

theorem replaceFirst_append_self (pat rest : List Char) :
    replaceFirst (pat ++ rest) pat = rest := by
  cases h : pat ++ rest with
  | nil =>
      rcases List.append_eq_nil.mp h with ⟨h1, h2⟩
      rw [h1, h2]
      rfl
  | cons c s =>
      rw [replaceFirst_cons, ← h, beginsWith_append_self, if_pos rfl,
        List.drop_left]

theorem replaceFirst_of_not_contains {s pat : List Char}
    (h : containsSub s pat = false) : replaceFirst s pat = s := by
  induction s with
  | nil => rfl
  | cons c r ih =>
      rw [containsSub, Bool.or_eq_false_iff] at h
      rw [replaceFirst_cons, if_neg (by simp [h.1]), ih h.2]

theorem takeWhile_append_all {p : Char → Bool} {l1 : List Char} (l2 : List Char)
    (h : ∀ c ∈ l1, p c = true) :
    (l1 ++ l2).takeWhile p = l1 ++ l2.takeWhile p := by
  induction l1 with
  | nil => rfl
  | cons c r ih =>
      have hc : p c = true := h c (List.mem_cons_self c r)
      simp only [List.cons_append, List.takeWhile_cons, hc, if_true]
      rw [ih (fun x hx => h x (List.mem_cons_of_mem c hx))]

theorem dropWhile_append_all {p : Char → Bool} {l1 : List Char} (l2 : List Char)
    (h : ∀ c ∈ l1, p c = true) :
    (l1 ++ l2).dropWhile p = l2.dropWhile p := by
  induction l1 with
  | nil => rfl
  | cons c r ih =>
      have hc : p c = true := h c (List.mem_cons_self c r)
      simp only [List.cons_append, List.dropWhile_cons, hc, if_true]
      exact ih (fun x hx => h x (List.mem_cons_of_mem c hx))

theorem takeWhile_cons_neg {p : Char → Bool} {c : Char} (s : List Char)
    (h : p c = false) : (c :: s).takeWhile p = [] := by
  simp [List.takeWhile_cons, h]

theorem dropWhile_cons_neg {p : Char → Bool} {c : Char} (s : List Char)
    (h : p c = false) : (c :: s).dropWhile p = c :: s := by
  simp [List.dropWhile_cons, h]

theorem word_not_space {c : Char} (h : isWordChar c = true) : isSpaceChar c = false := by
  rw [isWordChar, decide_eq_true_eq] at h
  rw [isSpaceChar, decide_eq_false_iff_not]
  omega

/-! ## Keyword detection lemmas -/

theorem detectType_thought_kw (rest : List Char) :
    detectType ("THINKING:".toList ++ rest) = .thought := by
  have h : beginsWith ("THINKING:".toList ++ rest) ("THINKING:".toList) = true :=
    beginsWith_append_self _ _
  unfold detectType typeKeywords
  rw [List.find?_cons_of_pos _ (by simpa using h)]

theorem detectType_action_kw (rest : List Char) :
    detectType ("ACTION:".toList ++ rest) = .action := by
  have h0 : beginsWith ("ACTION:".toList ++ rest) ("THINKING:".toList) = false := rfl
  have h : beginsWith ("ACTION:".toList ++ rest) ("ACTION:".toList) = true :=
    beginsWith_append_self _ _
  unfold detectType typeKeywords
  rw [List.find?_cons_of_neg _ (by simpa using h0),
    List.find?_cons_of_pos _ (by simpa using h)]

theorem detectType_response_kw (rest : List Char) :
    detectType ("RESPONSE:".toList ++ rest) = .response := by
  have h0 : beginsWith ("RESPONSE:".toList ++ rest) ("THINKING:".toList) = false := rfl
  have h1 : beginsWith ("RESPONSE:".toList ++ rest) ("ACTION:".toList) = false := rfl
  have h : beginsWith ("RESPONSE:".toList ++ rest) ("RESPONSE:".toList) = true :=
    beginsWith_append_self _ _
  unfold detectType typeKeywords
  rw [List.find?_cons_of_neg _ (by simpa using h0),
    List.find?_cons_of_neg _ (by simpa using h1),
    List.find?_cons_of_pos _ (by simpa using h)]

theorem detectType_elicitation_kw (rest : List Char) :
    detectType ("ELICITATION:".toList ++ rest) = .elicitation := by
  have h0 : beginsWith ("ELICITATION:".toList ++ rest) ("THINKING:".toList) = false := rfl
  have h1 : beginsWith ("ELICITATION:".toList ++ rest) ("ACTION:".toList) = false := rfl
  have h2 : beginsWith ("ELICITATION:".toList ++ rest) ("RESPONSE:".toList) = false := rfl
  have h : beginsWith ("ELICITATION:".toList ++ rest) ("ELICITATION:".toList) = true :=
    beginsWith_append_self _ _
  unfold detectType typeKeywords
  rw [List.find?_cons_of_neg _ (by simpa using h0),
    List.find?_cons_of_neg _ (by simpa using h1),
    List.find?_cons_of_neg _ (by simpa using h2),
    List.find?_cons_of_pos _ (by simpa using h)]

theorem detectType_error_kw (rest : List Char) :
    detectType ("ERROR:".toList ++ rest) = .error := by
  have h0 : beginsWith ("ERROR:".toList ++ rest) ("THINKING:".toList) = false := rfl
  have h1 : beginsWith ("ERROR:".toList ++ rest) ("ACTION:".toList) = false := rfl
  have h2 : beginsWith ("ERROR:".toList ++ rest) ("RESPONSE:".toList) = false := rfl
  have h3 : beginsWith ("ERROR:".toList ++ rest) ("ELICITATION:".toList) = false := rfl
  have h : beginsWith ("ERROR:".toList ++ rest) ("ERROR:".toList) = true :=
    beginsWith_append_self _ _
  unfold detectType typeKeywords
  rw [List.find?_cons_of_neg _ (by simpa using h0),
    List.find?_cons_of_neg _ (by simpa using h1),
    List.find?_cons_of_neg _ (by simpa using h2),
    List.find?_cons_of_neg _ (by simpa using h3),
    List.find?_cons_of_pos _ (by simpa using h)]

theorem detectType_no_kw {s : List Char}
    (h : ∀ tk ∈ typeKeywords, beginsWith s tk.2 = false) :
    detectType s = .thought := by
  rw [detectType, List.find?_eq_none.mpr (fun tk hk => by rw [h tk hk]; exact Bool.false_ne_true)]

/-! ## Claim theorems for the Activity Mapper -/

/-- Claim C4, counterexample: the input "ACTION: oops" starts with the
registered keyword prefix "ACTION:", yet the Mapper raises (the switch falls
through to the UnreachableCaseError default) and produces no activity at all,
so no activity with a prefix-stripped body is produced. -/
theorem mapper_action_prefix_counterexample :
    beginsWith ("ACTION: oops".toList) ("ACTION:".toList) = true ∧
    mapResponseToLinearActivityContent ("ACTION: oops".toList) = .error .unreachableCase :=
  ⟨rfl, rfl⟩

/-- Claim C4, amended: for every raw completion string starting with one of
the four non-Action keyword prefixes (THINKING:, RESPONSE:, ELICITATION:,
ERROR:), the Mapper produces an activity whose variant matches that prefix and
whose body is the input with exactly that prefix stripped and trimmed; for the
fifth prefix, ACTION:, the Mapper instead produces an Action activity or
raises, as settled by claims C6 and C9. -/
theorem mapper_keyword_strip (rest : List Char) :
    mapResponseToLinearActivityContent ("THINKING:".toList ++ rest) =
      .ok (.thought (trimChars rest)) ∧
    mapResponseToLinearActivityContent ("RESPONSE:".toList ++ rest) =
      .ok (.response (trimChars rest)) ∧
    mapResponseToLinearActivityContent ("ELICITATION:".toList ++ rest) =
      .ok (.elicitation (trimChars rest)) ∧
    mapResponseToLinearActivityContent ("ERROR:".toList ++ rest) =
      .ok (.error (trimChars rest)) := by
  refine ⟨?_, ?_, ?_, ?_⟩
  · simp only [mapResponseToLinearActivityContent, detectType_thought_kw]
    rw [show keywordOf .thought = "THINKING:".toList from rfl, replaceFirst_append_self]
  · simp only [mapResponseToLinearActivityContent, detectType_response_kw]
    rw [show keywordOf .response = "RESPONSE:".toList from rfl, replaceFirst_append_self]
  · simp only [mapResponseToLinearActivityContent, detectType_elicitation_kw]
    rw [show keywordOf .elicitation = "ELICITATION:".toList from rfl, replaceFirst_append_self]
  · simp only [mapResponseToLinearActivityContent, detectType_error_kw]
    rw [show keywordOf .error = "ERROR:".toList from rfl, replaceFirst_append_self]

/-- Claim C5, counterexample: the input "see THINKING: here" starts with none
of the five registered keyword prefixes, yet the resulting Thought body is
"see  here", not the full trimmed input: the default branch still removes the
first embedded occurrence of "THINKING:". -/
theorem mapper_default_counterexample :
    (∀ tk ∈ typeKeywords, beginsWith ("see THINKING: here".toList) tk.2 = false) ∧
    mapResponseToLinearActivityContent ("see THINKING: here".toList) =
      .ok (.thought ("see  here".toList)) ∧
    trimChars ("see THINKING: here".toList) = "see THINKING: here".toList ∧
    "see  here".toList ≠ "see THINKING: here".toList := by
  refine ⟨by rw [typeKeywords]; intro tk hk; fin_cases hk <;> rfl, rfl, rfl, by decide⟩

/-- Claim C5, amended: a completion string starting with no registered keyword
prefix maps to a Thought activity whose body is the input with the first
occurrence of "THINKING:" (anywhere, if present) removed and then trimmed; in
particular, when the input contains no occurrence of "THINKING:" at all, the
body is the full trimmed input. -/
theorem mapper_no_prefix_thought (s : List Char)
    (h : ∀ tk ∈ typeKeywords, beginsWith s tk.2 = false) :
    mapResponseToLinearActivityContent s =
      .ok (.thought (trimChars (replaceFirst s ("THINKING:".toList)))) ∧
    (containsSub s ("THINKING:".toList) = false →
      mapResponseToLinearActivityContent s = .ok (.thought (trimChars s))) := by
  have hd : detectType s = .thought := detectType_no_kw h
  have hmain : mapResponseToLinearActivityContent s =
      .ok (.thought (trimChars (replaceFirst s ("THINKING:".toList)))) := by
    simp only [mapResponseToLinearActivityContent, hd]
    rw [show keywordOf .thought = "THINKING:".toList from rfl]
  exact ⟨hmain, fun hc => by rw [hmain, replaceFirst_of_not_contains hc]⟩

/-- Witness for `mapper_no_prefix_thought` at the input "plain text". -/
theorem mapper_no_prefix_thought_witness :
    mapResponseToLinearActivityContent ("plain text".toList) =
      .ok (.thought ("plain text".toList)) :=
  (mapper_no_prefix_thought ("plain text".toList) (by rw [typeKeywords]; intro tk hk; fin_cases hk <;> rfl)).2 (by decide)

/-- Claim C9: a completion string that starts with the "ACTION:" prefix but in
which the Action call regex finds no match makes the Mapper raise (the switch
falls through to its UnreachableCaseError default); it returns no activity and
does not default to Thought. -/
theorem mapper_action_fallthrough_raises (s : List Char)
    (h1 : beginsWith s ("ACTION:".toList) = true)
    (h2 : findActionMatch s = none) :
    mapResponseToLinearActivityContent s = .error .unreachableCase := by
  obtain ⟨r, rfl, -⟩ := beginsWith_cons_elim h1
  have h0 : beginsWith ('A' :: r) ("THINKING:".toList) = false := rfl
  have hd : detectType ('A' :: r) = .action := by
    unfold detectType typeKeywords
    rw [List.find?_cons_of_neg _ (by simpa using h0),
      List.find?_cons_of_pos _ (by simpa using h1)]
  simp only [mapResponseToLinearActivityContent, hd, h2]

/-- Witness for `mapper_action_fallthrough_raises` at the input
"ACTION: nope". -/
theorem mapper_action_fallthrough_raises_witness :
    mapResponseToLinearActivityContent ("ACTION: nope".toList) = .error .unreachableCase :=
  mapper_action_fallthrough_raises ("ACTION: nope".toList) rfl rfl

theorem findActionMatch_of_matchAt {s : List Char} {m : List Char × List Char}
    (h : matchActionAt s = some m) : findActionMatch s = some m := by
  cases s with
  | nil => exact absurd h (by rw [show matchActionAt [] = none from rfl]; simp)
  | cons c r => rw [findActionMatch, h]

theorem matchActionAt_canonical (ws ident args rest : List Char)
    (hws : ∀ c ∈ ws, isSpaceChar c = true)
    (hin : ident ≠ []) (hiw : ∀ c ∈ ident, isWordChar c = true)
    (han : args ≠ []) (haw : ∀ c ∈ args, (c != ')') = true) :
    matchActionAt
      ("ACTION:".toList ++ (ws ++ (ident ++ ('(' :: (args ++ (')' :: rest)))))) =
      some (ident, args) := by
  obtain ⟨i0, irest, rfl⟩ := List.exists_cons_of_ne_nil hin
  obtain ⟨a0, arest, rfl⟩ := List.exists_cons_of_ne_nil han
  have hi0 : isSpaceChar i0 = false :=
    word_not_space (hiw i0 (List.mem_cons_self _ _))
  have hb : beginsWith
      ("ACTION:".toList ++ (ws ++ (i0 :: irest ++ ('(' :: (a0 :: arest ++ (')' :: rest))))))
      ("ACTION:".toList) = true := beginsWith_append_self _ _
  have hdrop : ("ACTION:".toList ++
      (ws ++ (i0 :: irest ++ ('(' :: (a0 :: arest ++ (')' :: rest)))))).drop 7 =
      ws ++ (i0 :: irest ++ ('(' :: (a0 :: arest ++ (')' :: rest)))) := rfl
  have hd1 : (ws ++ (i0 :: irest ++ ('(' :: (a0 :: arest ++ (')' :: rest))))).dropWhile
      isSpaceChar = i0 :: (irest ++ ('(' :: (a0 :: arest ++ (')' :: rest)))) := by
    rw [dropWhile_append_all _ hws, List.cons_append, dropWhile_cons_neg _ hi0]
  have ht1 : (i0 :: (irest ++ ('(' :: (a0 :: arest ++ (')' :: rest))))).takeWhile
      isWordChar = i0 :: irest := by
    rw [← List.cons_append, takeWhile_append_all _ hiw,
      takeWhile_cons_neg _ (by decide), List.append_nil]
  have ht2 : (i0 :: (irest ++ ('(' :: (a0 :: arest ++ (')' :: rest))))).dropWhile
      isWordChar = '(' :: (a0 :: arest ++ (')' :: rest)) := by
    rw [← List.cons_append, dropWhile_append_all _ hiw,
      dropWhile_cons_neg _ (by decide)]
  have ha1 : (a0 :: arest ++ (')' :: rest)).takeWhile (fun c => c != ')') =
      a0 :: arest := by
    rw [takeWhile_append_all _ haw, takeWhile_cons_neg _ (by decide), List.append_nil]
  have ha2 : (a0 :: arest ++ (')' :: rest)).dropWhile (fun c => c != ')') =
      ')' :: rest := by
    rw [dropWhile_append_all _ haw, dropWhile_cons_neg _ (by decide)]
  simp only [matchActionAt, hb, if_true, hdrop, hd1, ht1, ht2, ha1, ha2,
    List.isEmpty_cons, Bool.false_eq_true, if_false]

/-- Claim C6: a completion string shaped as the Action call pattern — the
ACTION: keyword, optional whitespace, an identifier, and a non-empty
parenthesized argument string (with anything after the closing parenthesis) —
maps to an Action activity whose action is the registered tool named by the
identifier and whose parameter is the parenthesized text verbatim; when the
identifier names no registered tool, the Mapper fails with the
invalid-tool-name condition instead. -/
theorem mapper_action_call (ws ident args rest : List Char)
    (hws : ∀ c ∈ ws, isSpaceChar c = true)
    (hin : ident ≠ []) (hiw : ∀ c ∈ ident, isWordChar c = true)
    (han : args ≠ []) (haw : ∀ c ∈ args, (c != ')') = true) :
    (∀ tn, toolNameOf ident = some tn →
      mapResponseToLinearActivityContent
        ("ACTION:".toList ++ (ws ++ (ident ++ ('(' :: (args ++ (')' :: rest)))))) =
        .ok (.action tn (some args) none)) ∧
    (toolNameOf ident = none →
      mapResponseToLinearActivityContent
        ("ACTION:".toList ++ (ws ++ (ident ++ ('(' :: (args ++ (')' :: rest)))))) =
        .error (.invalidToolName ident)) := by
  have hm := matchActionAt_canonical ws ident args rest hws hin hiw han haw
  have hf := findActionMatch_of_matchAt hm
  have hae : args.isEmpty = false := by
    cases args with
    | nil => exact absurd rfl han
    | cons a r => rfl
  constructor
  · intro tn htn
    simp only [mapResponseToLinearActivityContent, detectType_action_kw, hf, htn, hae,
      Bool.false_eq_true, if_false]
  · intro htn
    simp only [mapResponseToLinearActivityContent, detectType_action_kw, hf, htn]

/-- Witness for `mapper_action_call`: the spec's worked example
"ACTION: getWeather(40.0, -74.0)" yields an Action activity for getWeather
with parameter "40.0, -74.0", and the same shape with the unregistered
identifier "fly" fails with the invalid-tool-name condition. -/
theorem mapper_action_call_witness :
    mapResponseToLinearActivityContent ("ACTION: getWeather(40.0, -74.0)".toList) =
      .ok (.action .getWeather (some ("40.0, -74.0".toList)) none) ∧
    mapResponseToLinearActivityContent ("ACTION: fly(now)".toList) =
      .error (.invalidToolName ("fly".toList)) := by
  constructor
  · exact (mapper_action_call [' '] ("getWeather".toList) ("40.0, -74.0".toList) []
      (by decide) (by decide) (by decide) (by decide) (by decide)).1 .getWeather rfl
  · exact (mapper_action_call [' '] ("fly".toList) ("now".toList) []
      (by decide) (by decide) (by decide) (by decide) (by decide)).2 rfl

/-! ## Claim theorems for the get-weather executor -/

/-- Claim C7, counterexample: for the parameter "abc,1,2" two numeric tokens
are parseable from the comma-separated parameter (so, per the claim, the
executor should succeed), yet the executor fails with the invalid-parameter
condition, because the source checks the first two tokens specifically. -/
theorem executor_weather_counterexample :
    executeAction witnessEnv .getWeather (some ("abc,1,2".toList)) =
      .error .invalidParamWeather ∧
    (paramTokens ("abc,1,2".toList)).countP parseFloatOk = 2 :=
  ⟨rfl, rfl⟩

/-- Claim C7, amended: for every non-empty parameter string, the get-weather
executor fails with the invalid-parameter condition exactly when the
comma-split yields fewer than two tokens or the first or the second token is
not parseable as a number; otherwise it returns the weather tool's serialized
result for the first two parsed tokens. (The empty parameter string instead
hits the executor's earlier missing-parameter check; in particular "abc"
raises the invalid-parameter condition.) -/
theorem executor_weather_param (env : ToolEnv) (p : List Char) (hp : p ≠ []) :
    (executeAction env .getWeather (some p) = .error .invalidParamWeather ↔
      ¬(2 ≤ (paramTokens p).length ∧ parseFloatOk ((paramTokens p).getD 0 []) = true ∧
        parseFloatOk ((paramTokens p).getD 1 []) = true)) ∧
    ((2 ≤ (paramTokens p).length ∧ parseFloatOk ((paramTokens p).getD 0 []) = true ∧
        parseFloatOk ((paramTokens p).getD 1 []) = true) →
      executeAction env .getWeather (some p) =
        (env.getWeather ((paramTokens p).getD 0 [])
          ((paramTokens p).getD 1 [])).mapError .toolFailure) := by
  have hpe : p.isEmpty = false := by
    cases p with
    | nil => exact absurd rfl hp
    | cons a r => rfl
  have hres : executeAction env .getWeather (some p) =
      (if 2 ≤ (paramTokens p).length && parseFloatOk ((paramTokens p).getD 0 []) &&
          parseFloatOk ((paramTokens p).getD 1 []) then
        (env.getWeather ((paramTokens p).getD 0 [])
          ((paramTokens p).getD 1 [])).mapError .toolFailure
      else .error .invalidParamWeather) := by
    simp only [executeAction, hpe, Bool.false_eq_true, if_false]
  by_cases hc : 2 ≤ (paramTokens p).length ∧ parseFloatOk ((paramTokens p).getD 0 []) = true ∧
      parseFloatOk ((paramTokens p).getD 1 []) = true
  · have hcb : (decide (2 ≤ (paramTokens p).length) && parseFloatOk ((paramTokens p).getD 0 []) &&
        parseFloatOk ((paramTokens p).getD 1 [])) = true := by
      rw [hc.2.1, hc.2.2, decide_eq_true hc.1]
      rfl
    rw [hres, if_pos hcb]
    refine ⟨iff_of_false ?_ (fun hn => hn hc), fun _ => rfl⟩
    intro h
    rcases henv : env.getWeather ((paramTokens p).getD 0 []) ((paramTokens p).getD 1 [])
        with m | v <;> rw [henv] at h <;> simp [Except.mapError] at h
  · have hcb : (decide (2 ≤ (paramTokens p).length) && parseFloatOk ((paramTokens p).getD 0 []) &&
        parseFloatOk ((paramTokens p).getD 1 [])) = false := by
      cases hcb' : (decide (2 ≤ (paramTokens p).length) &&
          parseFloatOk ((paramTokens p).getD 0 []) &&
          parseFloatOk ((paramTokens p).getD 1 [])) with
      | false => rfl
      | true =>
          have h' := hcb'
          rw [Bool.and_eq_true, Bool.and_eq_true] at h'
          exact absurd ⟨of_decide_eq_true h'.1.1, h'.1.2, h'.2⟩ hc
    rw [hres, if_neg (by rw [hcb]; simp)]
    exact ⟨iff_of_true rfl hc, fun hP => absurd hP hc⟩

/-- Witness for `executor_weather_param`: the parameter "abc" raises the
invalid-parameter condition, and "40.0,-74.0" returns the (non-empty)
serialized weather result of the concrete tool environment. -/
theorem executor_weather_param_witness :
    executeAction witnessEnv .getWeather (some ("abc".toList)) =
      .error .invalidParamWeather ∧
    executeAction witnessEnv .getWeather (some ("40.0,-74.0".toList)) = .ok ("W".toList) := by
  constructor
  · exact (executor_weather_param witnessEnv ("abc".toList) (by decide)).1.mpr (by decide)
  · exact (executor_weather_param witnessEnv ("40.0,-74.0".toList) (by decide)).2 (by decide)

/-! ## Loop-body lemmas -/

theorem loopBody_iterations (env : ToolEnv) (res : Except AgentError (List Char))
    (st : LoopState) : (loopBody env res st).iterations = st.iterations := by
  cases res with
  | error e => rfl
  | ok r =>
      cases hm : mapResponseToLinearActivityContent r with
      | error e => simp [loopBody, hm, failState]
      | ok c =>
          cases c with
          | thought b => simp [loopBody, hm]
          | action tn p r0 =>
              cases hx : executeAction env tn p with
              | error e => simp [loopBody, hm, hx, failState]
              | ok tr => simp [loopBody, hm, hx]
          | response b => simp [loopBody, hm]
          | elicitation b => simp [loopBody, hm]
          | error b => simp [loopBody, hm]

theorem loopBody_thought (env : ToolEnv) (r : List Char) (st : LoopState) (b : List Char)
    (hm : mapResponseToLinearActivityContent r = .ok (.thought b)) :
    loopBody env (.ok r) st =
      { st with persisted := st.persisted ++ [.thought b],
                messages := st.messages ++ [⟨.assistant, r⟩] } := by
  simp only [loopBody, hm]

theorem executeAction_ok_param {env : ToolEnv} {tn : ToolName} {param : Option (List Char)}
    {tr : List Char} (hx : executeAction env tn param = .ok tr) :
    ∃ p, param = some p ∧ p ≠ [] ∧ orNull param = param := by
  cases param with
  | none => exact absurd hx (by simp [executeAction])
  | some p =>
      cases hp : p.isEmpty with
      | true => exact absurd hx (by simp [executeAction, hp])
      | false =>
          refine ⟨p, rfl, ?_, by simp [orNull, hp]⟩
          cases p with
          | nil => simp at hp
          | cons a r => simp

theorem loopBody_action_ok (env : ToolEnv) (r : List Char) (st : LoopState)
    (tn : ToolName) (param : Option (List Char)) (res0 : Option (List Char)) (tr : List Char)
    (hm : mapResponseToLinearActivityContent r = .ok (.action tn param res0))
    (hx : executeAction env tn param = .ok tr) :
    loopBody env (.ok r) st =
      { st with
        persisted := st.persisted ++ [.action tn param res0, .action tn param (some tr)],
        messages := st.messages ++
          [⟨.assistant, r⟩, ⟨.user, "Tool result: ".toList ++ tr⟩] } := by
  obtain ⟨p, rfl, -, ho⟩ := executeAction_ok_param hx
  simp only [loopBody, hm, hx, ho, List.append_assoc, List.cons_append, List.nil_append]

theorem loopBody_action_fail (env : ToolEnv) (r : List Char) (st : LoopState)
    (tn : ToolName) (param : Option (List Char)) (res0 : Option (List Char)) (e : AgentError)
    (hm : mapResponseToLinearActivityContent r = .ok (.action tn param res0))
    (hx : executeAction env tn param = .error e) :
    loopBody env (.ok r) st =
      { st with
        persisted := st.persisted ++ [.action tn param res0,
          .error ("Agent error: ".toList ++ e.message)],
        taskComplete := true } := by
  simp only [loopBody, hm, hx, failState, List.append_assoc, List.cons_append, List.nil_append]

theorem mapper_action_result_none {response : List Char} {tn : ToolName}
    {param res0 : Option (List Char)}
    (hm : mapResponseToLinearActivityContent response = .ok (.action tn param res0)) :
    res0 = none := by
  unfold mapResponseToLinearActivityContent at hm
  split at hm
  case h_6 =>
    split at hm
    · split at hm
      · simp only [Except.ok.injEq, Content.action.injEq] at hm
        exact hm.2.2.symm
      · exact absurd hm (by simp)
    · exact absurd hm (by simp)
  all_goals simp at hm

/-- Effect of one iteration that keeps the loop going: the completion flag is
unchanged and only non-terminal, non-Error activities are appended. -/
theorem loopBody_keepGoing (env : ToolEnv) (res : Except AgentError (List Char))
    (st : LoopState) (h : classifyStep env res = .keepGoing) :
    (loopBody env res st).taskComplete = st.taskComplete ∧
    ∃ l, (loopBody env res st).persisted = st.persisted ++ l ∧
      ∀ c ∈ l, isTerminal c = false ∧ isErrorActivity c = false := by
  cases res with
  | error e => simp [classifyStep] at h
  | ok r =>
      cases hm : mapResponseToLinearActivityContent r with
      | error e => simp [classifyStep, hm] at h
      | ok c =>
          cases c with
          | thought b =>
              rw [loopBody_thought env r st b hm]
              exact ⟨rfl, [.thought b], rfl, by simp [isTerminal, isErrorActivity]⟩
          | action tn p r0 =>
              cases hx : executeAction env tn p with
              | error e => simp [classifyStep, hm, hx] at h
              | ok tr =>
                  rw [loopBody_action_ok env r st tn p r0 tr hm hx]
                  exact ⟨rfl, [.action tn p r0, .action tn p (some tr)], rfl,
                    by simp [isTerminal, isErrorActivity]⟩
          | response b => simp [classifyStep, hm] at h
          | elicitation b => simp [classifyStep, hm] at h
          | error b => simp [classifyStep, hm] at h

/-- Effect of one iteration that stops on a terminal activity: the loop is
flagged complete and exactly one terminal activity is appended. -/
theorem loopBody_stop (env : ToolEnv) (res : Except AgentError (List Char))
    (st : LoopState) (h : classifyStep env res = .stop) :
    (loopBody env res st).taskComplete = true ∧
    ∃ c, isTerminal c = true ∧ (loopBody env res st).persisted = st.persisted ++ [c] := by
  cases res with
  | error e => simp [classifyStep] at h
  | ok r =>
      cases hm : mapResponseToLinearActivityContent r with
      | error e => simp [classifyStep, hm] at h
      | ok c =>
          cases c with
          | thought b => simp [classifyStep, hm] at h
          | action tn p r0 =>
              cases hx : executeAction env tn p with
              | error e => simp [classifyStep, hm, hx] at h
              | ok tr => simp [classifyStep, hm, hx] at h
          | response b =>
              exact ⟨by simp [loopBody, hm], .response b, rfl, by simp [loopBody, hm]⟩
          | elicitation b =>
              exact ⟨by simp [loopBody, hm], .elicitation b, rfl, by simp [loopBody, hm]⟩
          | error b =>
              exact ⟨by simp [loopBody, hm], .error b, rfl, by simp [loopBody, hm]⟩

/-- Effect of one iteration whose step raises: the loop is flagged complete
and the appended activities are zero or one non-terminal record (the action
intent) followed by exactly one Error activity carrying the failure's
message. -/
theorem loopBody_fails (env : ToolEnv) (res : Except AgentError (List Char))
    (st : LoopState) (e : AgentError) (h : classifyStep env res = .fails e) :
    (loopBody env res st).taskComplete = true ∧
    ∃ mid, (loopBody env res st).persisted =
        st.persisted ++ mid ++ [.error ("Agent error: ".toList ++ e.message)] ∧
      ∀ c ∈ mid, isTerminal c = false ∧ isErrorActivity c = false := by
  cases res with
  | error e' =>
      have he : e' = e := by simpa [classifyStep] using h
      rw [← he]
      exact ⟨rfl, [], by simp [loopBody, failState], by simp⟩
  | ok r =>
      cases hm : mapResponseToLinearActivityContent r with
      | error e' =>
          have he : e' = e := by simpa [classifyStep, hm] using h
          rw [← he]
          refine ⟨by simp [loopBody, hm, failState], [], by simp [loopBody, hm, failState], by simp⟩
      | ok c =>
          cases c with
          | thought b => simp [classifyStep, hm] at h
          | action tn p r0 =>
              cases hx : executeAction env tn p with
              | ok tr => simp [classifyStep, hm, hx] at h
              | error e' =>
                  have he : e' = e := by simpa [classifyStep, hm, hx] using h
                  rw [← he]
                  refine ⟨by rw [loopBody_action_fail env r st tn p r0 e' hm hx],
                    [.action tn p r0], ?_, by simp [isTerminal, isErrorActivity]⟩
                  rw [loopBody_action_fail env r st tn p r0 e' hm hx]
                  simp [List.append_assoc]
          | response b => simp [classifyStep, hm] at h
          | elicitation b => simp [classifyStep, hm] at h
          | error b => simp [classifyStep, hm] at h

/-! ## Loop-driver lemmas -/

theorem iterSet (st : LoopState) (k : Nat) :
    ({ st with iterations := k } : LoopState).iterations = k := rfl

theorem loopBody_inc_iterations (env : ToolEnv) (res : Except AgentError (List Char))
    (st : LoopState) :
    (loopBody env res { st with iterations := st.iterations + 1 }).iterations =
      st.iterations + 1 := by
  rw [loopBody_iterations]

theorem runLoop_zero (env : ToolEnv) (oracle : CompletionOracle) (st : LoopState) :
    runLoop env oracle 0 st = st := rfl

theorem runLoop_succ (env : ToolEnv) (oracle : CompletionOracle) (fuel : Nat)
    (st : LoopState) :
    runLoop env oracle (fuel + 1) st =
      if st.taskComplete = false ∧ st.iterations < maxIterations then
        runLoop env oracle fuel
          (loopBody env (callOpenAI oracle st.iterations)
            { st with iterations := st.iterations + 1 })
      else st := rfl

theorem runLoop_of_complete (env : ToolEnv) (oracle : CompletionOracle) (fuel : Nat)
    (st : LoopState) (h : st.taskComplete = true) : runLoop env oracle fuel st = st := by
  cases fuel with
  | zero => rfl
  | succ n => rw [runLoop_succ, if_neg (by simp [h])]

theorem runLoop_iterations_le (env : ToolEnv) (oracle : CompletionOracle) :
    ∀ fuel st, (runLoop env oracle fuel st).iterations ≤ st.iterations + fuel := by
  intro fuel
  induction fuel with
  | zero => intro st; exact Nat.le_refl _
  | succ n ih =>
      intro st
      rw [runLoop_succ]
      by_cases hg : st.taskComplete = false ∧ st.iterations < maxIterations
      · rw [if_pos hg]
        have h1 := ih (loopBody env (callOpenAI oracle st.iterations)
          { st with iterations := st.iterations + 1 })
        rw [loopBody_inc_iterations] at h1
        omega
      · rw [if_neg hg]; omega

theorem runLoop_not_complete_iterations (env : ToolEnv) (oracle : CompletionOracle) :
    ∀ fuel st, st.iterations + fuel = maxIterations →
      (runLoop env oracle fuel st).taskComplete = false →
      (runLoop env oracle fuel st).iterations = maxIterations := by
  intro fuel
  induction fuel with
  | zero => intro st hinv _; exact hinv
  | succ n ih =>
      intro st hinv hnc
      rw [runLoop_succ] at hnc ⊢
      by_cases hg : st.taskComplete = false ∧ st.iterations < maxIterations
      · rw [if_pos hg] at hnc ⊢
        exact ih _ (by rw [loopBody_inc_iterations]; omega) hnc
      · rw [if_neg hg] at hnc
        rw [if_neg hg]
        rcases Decidable.not_and_iff_or_not.mp hg with h1 | h2
        · exact absurd hnc (by simpa using h1)
        · omega

theorem handleUserPrompt_iterations (env : ToolEnv) (oracle : CompletionOracle)
    (init : List Message) :
    (handleUserPrompt env oracle init).iterations =
      (runLoop env oracle maxIterations (initState init)).iterations := by
  simp only [handleUserPrompt]
  split <;> rfl

theorem mapsToThought_spec {res : Except AgentError (List Char)}
    (h : mapsToThought res = true) :
    ∃ r b, res = .ok r ∧ mapResponseToLinearActivityContent r = .ok (.thought b) := by
  cases res with
  | error e => simp [mapsToThought] at h
  | ok r =>
      cases hm : mapResponseToLinearActivityContent r with
      | error e => rw [mapsToThought, hm] at h; simp at h
      | ok c =>
          cases c with
          | thought b => exact ⟨r, b, rfl, hm⟩
          | action tn p r0 => rw [mapsToThought, hm] at h; simp at h
          | response b => rw [mapsToThought, hm] at h; simp at h
          | elicitation b => rw [mapsToThought, hm] at h; simp at h
          | error b => rw [mapsToThought, hm] at h; simp at h

theorem runLoop_all_thought (env : ToolEnv) (oracle : CompletionOracle)
    (hT : ∀ i, mapsToThought (callOpenAI oracle i) = true) :
    ∀ fuel st, st.taskComplete = false → st.iterations + fuel = maxIterations →
      (runLoop env oracle fuel st).taskComplete = false ∧
      (runLoop env oracle fuel st).iterations = maxIterations ∧
      ∃ l, (runLoop env oracle fuel st).persisted = st.persisted ++ l ∧
        ∀ c ∈ l, ∃ b, c = Content.thought b := by
  intro fuel
  induction fuel with
  | zero =>
      intro st hc hinv
      rw [runLoop_zero]
      exact ⟨hc, by omega, [], by simp, by simp⟩
  | succ n ih =>
      intro st hc hinv
      rw [runLoop_succ, if_pos ⟨hc, by omega⟩]
      obtain ⟨r, b, hr, hm⟩ := mapsToThought_spec (hT st.iterations)
      have hbody := loopBody_thought env r { st with iterations := st.iterations + 1 } b hm
      have hcB : (loopBody env (callOpenAI oracle st.iterations)
          { st with iterations := st.iterations + 1 }).taskComplete = false := by
        rw [hr, hbody]; exact hc
      have hiB : (loopBody env (callOpenAI oracle st.iterations)
          { st with iterations := st.iterations + 1 }).iterations + n = maxIterations := by
        rw [loopBody_inc_iterations]; omega
      have hpB : (loopBody env (callOpenAI oracle st.iterations)
          { st with iterations := st.iterations + 1 }).persisted =
          st.persisted ++ [Content.thought b] := by
        rw [hr, hbody]
      obtain ⟨hc2, hit2, l, hp2, hl2⟩ := ih _ hcB hiB
      refine ⟨hc2, hit2, Content.thought b :: l, ?_, ?_⟩
      · rw [hp2, hpB]
        simp
      · intro c hcm
        rcases List.mem_cons.mp hcm with h | h
        · exact ⟨b, h⟩
        · exact hl2 c h

/-- Claim C1: the agent loop performs at most 10 iterations for every oracle;
and when every completion maps to a Thought activity, it performs exactly 10
iterations, the final persisted activity is the limit-reached Error, and every
activity persisted before it is a Thought (so no Response, Error, or
Elicitation activity precedes it). -/
theorem agent_loop_iteration_bound (env : ToolEnv) (oracle : CompletionOracle)
    (init : List Message) :
    (handleUserPrompt env oracle init).iterations ≤ maxIterations ∧
    ((∀ i, mapsToThought (callOpenAI oracle i) = true) →
      (handleUserPrompt env oracle init).iterations = maxIterations ∧
      (handleUserPrompt env oracle init).persisted.getLast? =
        some (.error maxIterationsMessage) ∧
      ∀ c ∈ (handleUserPrompt env oracle init).persisted.dropLast,
        ∃ b, c = Content.thought b) := by
  constructor
  · rw [handleUserPrompt_iterations]
    have h := runLoop_iterations_le env oracle maxIterations (initState init)
    simpa [initState] using h
  · intro hT
    obtain ⟨hc, hit, l, hp, hl⟩ :=
      runLoop_all_thought env oracle hT maxIterations (initState init) rfl rfl
    have hfinal : handleUserPrompt env oracle init =
        { runLoop env oracle maxIterations (initState init) with
          persisted := (runLoop env oracle maxIterations (initState init)).persisted ++
            [.error maxIterationsMessage] } := by
      simp only [handleUserPrompt]
      rw [if_pos ⟨hc, by omega⟩]
    rw [hfinal]
    refine ⟨hit, ?_, ?_⟩
    · exact List.getLast?_concat _
    · show ∀ c ∈ ((runLoop env oracle maxIterations (initState init)).persisted ++
        [Content.error maxIterationsMessage]).dropLast, ∃ b, c = Content.thought b
      rw [List.dropLast_concat, hp]
      intro c hcm
      exact hl c (by simpa [initState] using hcm)

/-- Witness for `agent_loop_iteration_bound`: with an oracle that always
answers "THINKING: hi", the loop runs exactly 10 iterations and ends with the
limit-reached Error activity. -/
theorem agent_loop_iteration_bound_witness :
    (handleUserPrompt witnessEnv thoughtOracle []).iterations = maxIterations ∧
    (handleUserPrompt witnessEnv thoughtOracle []).persisted.getLast? =
      some (.error maxIterationsMessage) := by
  have h := (agent_loop_iteration_bound witnessEnv thoughtOracle []).2 (fun i => rfl)
  exact ⟨h.1, h.2.1⟩

theorem runLoop_fail_at (env : ToolEnv) (oracle : CompletionOracle) (k : Nat) (e : AgentError)
    (hk : k < maxIterations)
    (hcont : ∀ i, i < k → classifyStep env (callOpenAI oracle i) = .keepGoing)
    (hfail : classifyStep env (callOpenAI oracle k) = .fails e) :
    ∀ fuel st, st.taskComplete = false → st.iterations + fuel = maxIterations →
      st.iterations ≤ k →
      (∀ c ∈ st.persisted, isErrorActivity c = false) →
      (runLoop env oracle fuel st).taskComplete = true ∧
      (runLoop env oracle fuel st).iterations = k + 1 ∧
      (runLoop env oracle fuel st).persisted.countP isErrorActivity = 1 ∧
      (runLoop env oracle fuel st).persisted.getLast? =
        some (.error ("Agent error: ".toList ++ e.message)) := by
  intro fuel
  induction fuel with
  | zero =>
      intro st hc hinv hle hpe
      exact absurd hle (by omega)
  | succ n ih =>
      intro st hc hinv hle hpe
      rw [runLoop_succ, if_pos ⟨hc, by omega⟩]
      by_cases hik : st.iterations = k
      · obtain ⟨hC, mid, hP, hmid⟩ := loopBody_fails env (callOpenAI oracle st.iterations)
          { st with iterations := st.iterations + 1 } e (by rw [hik]; exact hfail)
        rw [runLoop_of_complete _ _ _ _ hC]
        have hsp : ({ st with iterations := st.iterations + 1 } : LoopState).persisted =
          st.persisted := rfl
        refine ⟨hC, by rw [loopBody_inc_iterations]; omega, ?_, ?_⟩
        · rw [hP, hsp, List.countP_append, List.countP_append]
          have h1 : st.persisted.countP isErrorActivity = 0 :=
            List.countP_eq_zero.mpr (fun c hcm => by simp [hpe c hcm])
          have h2 : mid.countP isErrorActivity = 0 :=
            List.countP_eq_zero.mpr (fun c hcm => by simp [(hmid c hcm).2])
          rw [h1, h2]
          rfl
        · rw [hP]
          exact List.getLast?_concat _
      · have hkg := hcont st.iterations (by omega)
        obtain ⟨hC, l, hP, hl⟩ := loopBody_keepGoing env (callOpenAI oracle st.iterations)
          { st with iterations := st.iterations + 1 } hkg
        apply ih
        · rw [hC]; exact hc
        · rw [loopBody_inc_iterations]; omega
        · rw [loopBody_inc_iterations]; omega
        · intro c hcm
          rw [hP] at hcm
          rcases List.mem_append.mp hcm with h | h
          · exact hpe c h
          · exact (hl c h).2

/-- Claim C2: when the first k completions keep the loop going and step k
raises (completion-API failure, mapper failure, or executor failure), the run
ends immediately after iteration k+1, appends no limit-reached activity,
persists exactly one Error activity, and that Error activity is the last one
persisted and carries the failure's message. -/
theorem loop_failure_single_error (env : ToolEnv) (oracle : CompletionOracle)
    (init : List Message) (k : Nat) (e : AgentError)
    (hk : k < maxIterations)
    (hcont : ∀ i, i < k → classifyStep env (callOpenAI oracle i) = .keepGoing)
    (hfail : classifyStep env (callOpenAI oracle k) = .fails e) :
    handleUserPrompt env oracle init = runLoop env oracle maxIterations (initState init) ∧
    (handleUserPrompt env oracle init).taskComplete = true ∧
    (handleUserPrompt env oracle init).iterations = k + 1 ∧
    (handleUserPrompt env oracle init).persisted.countP isErrorActivity = 1 ∧
    (handleUserPrompt env oracle init).persisted.getLast? =
      some (.error ("Agent error: ".toList ++ e.message)) := by
  obtain ⟨h1, h2, h3, h4⟩ := runLoop_fail_at env oracle k e hk hcont hfail
    maxIterations (initState init) rfl rfl (Nat.zero_le k) (by simp [initState])
  have heq : handleUserPrompt env oracle init =
      runLoop env oracle maxIterations (initState init) := by
    simp only [handleUserPrompt]
    rw [if_neg (by simp [h1])]
  rw [heq]
  exact ⟨rfl, h1, h2, h3, h4⟩

/-- Witness for `loop_failure_single_error`: an oracle whose first completion
call fails makes the run stop after 1 iteration with exactly one persisted
Error activity carrying the wrapped failure message. -/
theorem loop_failure_single_error_witness :
    (handleUserPrompt witnessEnv failOracle []).iterations = 1 ∧
    (handleUserPrompt witnessEnv failOracle []).persisted.countP isErrorActivity = 1 ∧
    (handleUserPrompt witnessEnv failOracle []).persisted.getLast? =
      some (.error ("Agent error: OpenAI API error: boom".toList)) := by
  have h := loop_failure_single_error witnessEnv failOracle [] 0 (.openAI ("boom".toList))
    (by decide) (fun i hi => absurd hi (Nat.not_lt_zero i)) rfl
  exact ⟨h.2.2.1, h.2.2.2.1, h.2.2.2.2⟩

/-- Claim C3: an iteration whose completion maps to an Action activity and
whose tool execution succeeds persists exactly two activities, in order the
intent record (tool name, raw parameter, no result) and then the outcome
record (same tool name, same parameter, stringified tool result), and appends
the model's raw text and the synthetic tool-result message to the
conversation history before the next iteration. -/
theorem action_iteration_two_activities (env : ToolEnv) (st : LoopState) (r : List Char)
    (tn : ToolName) (param res0 : Option (List Char)) (tr : List Char)
    (hm : mapResponseToLinearActivityContent r = .ok (.action tn param res0))
    (hx : executeAction env tn param = .ok tr) :
    (loopBody env (.ok r) st).persisted =
      st.persisted ++ [.action tn param none, .action tn param (some tr)] ∧
    (loopBody env (.ok r) st).messages =
      st.messages ++ [⟨.assistant, r⟩, ⟨.user, "Tool result: ".toList ++ tr⟩] := by
  have h0 : res0 = none := mapper_action_result_none hm
  subst h0
  rw [loopBody_action_ok env r st tn param none tr hm hx]
  exact ⟨rfl, rfl⟩

/-- Witness for `action_iteration_two_activities` at the completion
"ACTION: getWeather(1,2)" with a tool environment returning "W". -/
theorem action_iteration_two_activities_witness :
    (loopBody witnessEnv (.ok ("ACTION: getWeather(1,2)".toList)) (initState [])).persisted =
      [.action .getWeather (some ("1,2".toList)) none,
       .action .getWeather (some ("1,2".toList)) (some ("W".toList))] ∧
    (loopBody witnessEnv (.ok ("ACTION: getWeather(1,2)".toList)) (initState [])).messages =
      [⟨.assistant, "ACTION: getWeather(1,2)".toList⟩,
       ⟨.user, "Tool result: W".toList⟩] := by
  have h := action_iteration_two_activities witnessEnv (initState [])
    ("ACTION: getWeather(1,2)".toList) .getWeather (some ("1,2".toList)) none
    ("W".toList) rfl rfl
  exact ⟨h.1, h.2⟩

theorem runLoop_terminal_invariant (env : ToolEnv) (oracle : CompletionOracle) :
    ∀ fuel st,
      (st.taskComplete = false → st.persisted.countP isTerminal = 0) →
      st.persisted.countP isTerminal ≤ 1 →
      ((runLoop env oracle fuel st).taskComplete = false →
        (runLoop env oracle fuel st).persisted.countP isTerminal = 0) ∧
      (runLoop env oracle fuel st).persisted.countP isTerminal ≤ 1 := by
  intro fuel
  induction fuel with
  | zero => intro st h0 h1; exact ⟨h0, h1⟩
  | succ n ih =>
      intro st h0 h1
      rw [runLoop_succ]
      by_cases hg : st.taskComplete = false ∧ st.iterations < maxIterations
      · rw [if_pos hg]
        have hz : st.persisted.countP isTerminal = 0 := h0 hg.1
        have hsp : ({ st with iterations := st.iterations + 1 } : LoopState).persisted =
          st.persisted := rfl
        rcases hcl : classifyStep env (callOpenAI oracle st.iterations) with _ | _ | e
        · obtain ⟨hC, l, hP, hl⟩ := loopBody_keepGoing env (callOpenAI oracle st.iterations)
            { st with iterations := st.iterations + 1 } hcl
          have hcount : (loopBody env (callOpenAI oracle st.iterations)
              { st with iterations := st.iterations + 1 }).persisted.countP isTerminal = 0 := by
            rw [hP, hsp, List.countP_append, hz,
              List.countP_eq_zero.mpr (fun c hcm => by simp [(hl c hcm).1])]
          exact ih _ (fun _ => hcount) (by rw [hcount]; omega)
        · obtain ⟨hC, c, hterm, hP⟩ := loopBody_stop env (callOpenAI oracle st.iterations)
            { st with iterations := st.iterations + 1 } hcl
          rw [runLoop_of_complete _ _ _ _ hC]
          have hcount : (loopBody env (callOpenAI oracle st.iterations)
              { st with iterations := st.iterations + 1 }).persisted.countP isTerminal = 1 := by
            rw [hP, hsp, List.countP_append, hz, List.countP_singleton, hterm]
            rfl
          exact ⟨fun hcon => absurd hcon (by rw [hC]; simp), by rw [hcount]⟩
        · obtain ⟨hC, mid, hP, hmid⟩ := loopBody_fails env (callOpenAI oracle st.iterations)
            { st with iterations := st.iterations + 1 } e hcl
          rw [runLoop_of_complete _ _ _ _ hC]
          have hcount : (loopBody env (callOpenAI oracle st.iterations)
              { st with iterations := st.iterations + 1 }).persisted.countP isTerminal = 1 := by
            rw [hP, hsp, List.countP_append, List.countP_append, hz,
              List.countP_eq_zero.mpr (fun c hcm => by simp [(hmid c hcm).1]),
              List.countP_singleton]
            rfl
          exact ⟨fun hcon => absurd hcon (by rw [hC]; simp), by rw [hcount]⟩
      · rw [if_neg hg]
        exact ⟨h0, h1⟩

/-- Claim C10: a run persists at most one loop-ending (terminal) activity;
when the loop flags completion the limit-reached Error is not appended, and
when it does not, no terminal activity was persisted during the loop and
exactly the limit-reached Error is appended after it. -/
theorem loop_single_terminal (env : ToolEnv) (oracle : CompletionOracle)
    (init : List Message) :
    (handleUserPrompt env oracle init).persisted.countP isTerminal ≤ 1 ∧
    ((runLoop env oracle maxIterations (initState init)).taskComplete = true →
      handleUserPrompt env oracle init =
        runLoop env oracle maxIterations (initState init)) ∧
    ((runLoop env oracle maxIterations (initState init)).taskComplete = false →
      (runLoop env oracle maxIterations (initState init)).persisted.countP isTerminal = 0 ∧
      (handleUserPrompt env oracle init).persisted =
        (runLoop env oracle maxIterations (initState init)).persisted ++
          [.error maxIterationsMessage]) := by
  obtain ⟨hi0, hi1⟩ := runLoop_terminal_invariant env oracle maxIterations (initState init)
    (fun _ => rfl) (by simp [initState])
  have hbranch : ∀ h : (runLoop env oracle maxIterations (initState init)).taskComplete = false,
      (handleUserPrompt env oracle init).persisted =
        (runLoop env oracle maxIterations (initState init)).persisted ++
          [.error maxIterationsMessage] := by
    intro h
    have hit := runLoop_not_complete_iterations env oracle maxIterations (initState init) rfl h
    simp only [handleUserPrompt]
    rw [if_pos ⟨h, by omega⟩]
  refine ⟨?_, ?_, fun h => ⟨hi0 h, hbranch h⟩⟩
  · by_cases h : (runLoop env oracle maxIterations (initState init)).taskComplete = false
    · rw [hbranch h, List.countP_append, hi0 h, List.countP_singleton]
      simp [isTerminal]
    · have heq : handleUserPrompt env oracle init =
          runLoop env oracle maxIterations (initState init) := by
        simp only [handleUserPrompt]
        rw [if_neg (by simp [h])]
      rw [heq]
      exact hi1
  · intro h
    simp only [handleUserPrompt]
    rw [if_neg (by simp [h])]

/-- Witness for `loop_single_terminal`: with an oracle answering
"RESPONSE: done" the loop completes on its own and the limit-reached Error is
not appended. -/
theorem loop_single_terminal_witness :
    handleUserPrompt witnessEnv responseOracle [] =
      runLoop witnessEnv responseOracle maxIterations (initState []) :=
  (loop_single_terminal witnessEnv responseOracle []).2.1 rfl

/-- Claim C8: the conversation history seeding the loop is exactly the fixed
system instruction, then the initial user prompt when non-empty, then the
prior turns reconstructed from the tracker's activity log filtered to prompt
and response kinds, reversed into chronological order, with prompts as
user-role and responses as assistant-role messages. -/
theorem seed_messages_spec (sysPrompt userPrompt : List Char) (log : List PrevActivity) :
    messagesSeed sysPrompt userPrompt log = specSeedMessages sysPrompt userPrompt log := by
  cases h : userPrompt.isEmpty <;>
    simp [messagesSeed, specSeedMessages, generateMessagesFromPreviousActivities, h]

end WeatherBot
